import Mathlib

/-!
Verification of the alexa-skill request-validation code.

A shallow embedding of the Go packages `server` and `alexa` of the
mctofu/alexa-skill repository, together with theorems settling the claims
about its request-authentication pipeline.

Modelling conventions:
* Go `error` results become `Option String` / `Except String α` (`none` /
  `.ok` = nil error); the `alexa` package's typed `ValidationError` is kept
  as its own structure inside `GoError`.
* Go run-time panics (nil-pointer dereference, failed interface conversion)
  are made explicit with the `GoOutcome` type: a Go function that can panic
  returns `GoOutcome α` instead of `α`.
* Time is modelled in integer nanoseconds (`Int`), the resolution of Go's
  `time.Time`/`time.Duration`; Unix-second comparisons use seconds where the
  source calls `.Unix()`.
* Standard-library primitives that the repository only calls (URL parsing,
  PEM/X.509 decoding, SHA-1, `rsa.VerifyPKCS1v15`, RFC 3339 parsing, the
  injected `CertReader`) are parameters of the embedded functions, exactly
  as `CertReader` already is a parameter in the Go source.
-/

namespace AlexaSkill

/-- Result of a Go function call that may panic: either a normal return
value or a run-time panic with a message. -/
inductive GoOutcome (α : Type) where
  | ok (val : α)
  | panic (message : String)
  deriving DecidableEq, Repr

/-- `alexa.ValidationError`: an error indicating there was an issue with the
request contents (types.go). -/
structure ValidationError where
  message : String
  deriving DecidableEq, Repr

/-- A Go `error` value as used by the `alexa` package: either the typed
`ValidationError` or a generic error. -/
inductive GoError where
  | validation (e : ValidationError)
  | generic (message : String)
  deriving DecidableEq, Repr

/-- The components of a parsed URL that `verifyCertURL` inspects
(`url.Parse` itself is Go standard library; its output is taken as input
here). -/
structure CertURL where
  scheme : String
  host : String
  path : String
  deriving DecidableEq, Repr

/-- The dynamic type of `cert.PublicKey` (an `interface\x7b\x7d` in Go) as
far as `readValidateBody`'s type assertion `publicKey.(*rsa.PublicKey)`
distinguishes it: either an RSA public key (of abstract type `K`) or a
public key of any other family. -/
inductive PublicKey (K : Type) where
  | rsa (key : K)
  | nonRSA
  deriving DecidableEq, Repr

/-- An X.509 certificate as far as `readValidateCertificate` and
`readValidateBody` inspect it: validity window (`NotBefore`/`NotAfter` as
Unix seconds, the granularity of the source's `.Unix()` calls), the values
of the `Subject.Names` entries (string-valued entries; a non-string
`interface\x7b\x7d` value never compares equal to a string in Go), and the
public key. `K` is the type of RSA public keys, which the source never
inspects beyond passing to `rsa.VerifyPKCS1v15`. -/
structure Certificate (K : Type) where
  notBefore : Int
  notAfter : Int
  subjectNames : List String
  publicKey : PublicKey K
  deriving DecidableEq, Repr

/-- Go's `strings.HasPrefix s p` at the character level: `p.data` is a
prefix of `s.data`. -/
def hasPrefixGo (s p : String) : Bool :=
  p.data.isPrefixOf s.data

/-- The rule sequence of `verifyCertURL` (server.go) on a successfully
parsed link: three rules in source order, first failure wins. -/
def verifyCertURLChecks (link : CertURL) : Option String :=
  if link.scheme ≠ "https" then
    some "cert url not https"
  else if link.host ≠ "s3.amazonaws.com" ∧ link.host ≠ "s3.amazonaws.com:443" then
    some "cert not on s3"
  else if ¬ (hasPrefixGo link.path "/echo.api/" = true) then
    some "not an echo cert"
  else
    none

/-- `verifyCertURL` (server.go): the trust-origin check on the
`SignatureCertChainUrl` header string.  Its first line,
`link, _ := url.Parse(path)`, discards the parse error; `parsedURL` is
that `url.Parse` result, with `none` modelling a failed parse (e.g. the
string "https://s3.amazonaws.com:bad/echo.api/x", whose port is invalid),
which leaves `link` nil, so the next line `link.Scheme` panics with a
nil-pointer dereference instead of reaching any rule.  On a successful
parse the three rules run in order. -/
def verifyCertURL (parsedURL : Option CertURL) : GoOutcome (Option String) :=
  match parsedURL with
  | none => .panic "invalid memory address or nil pointer dereference"
  | some link => .ok (verifyCertURLChecks link)

/-- `readValidateCertificate` (server.go): reads the `SignatureCertChainUrl`
header (taken here as the already-parsed `certURL`), checks the trust
origin, fetches the certificate with the injected `certReader`, decodes the
PEM block (`pemDecode`, standard library, `none` = no block found), parses
the X.509 certificate (`parseCertificate`, standard library), then performs
the temporal check and the subject-name identity check.  Taking the parsed
`certURL` restricts this model to executions where `url.Parse` inside
`verifyCertURL` succeeded; the failed-parse executions panic there (see
`verifyCertURL`) and never reach the later stages. -/
def readValidateCertificate {K : Type}
    (certReader : CertURL → Except String (List Nat))
    (pemDecode : List Nat → Option (List Nat))
    (parseCertificate : List Nat → Except String (Certificate K))
    (now : Int) (certURL : CertURL) : Except String (Certificate K) :=
  match verifyCertURLChecks certURL with
  | some e => .error e
  | none =>
    match certReader certURL with
    | .error e => .error ("failed to read cert: " ++ e)
    | .ok certContents =>
      match pemDecode certContents with
      | none => .error "failed to parse certificate PEM"
      | some blockBytes =>
        match parseCertificate blockBytes with
        | .error e => .error e
        | .ok cert =>
          if now < cert.notBefore ∨ now > cert.notAfter then
            .error "certificate expired"
          else
            let foundName :=
              cert.subjectNames.any (fun altName => altName == "echo-api.amazon.com")
            if ¬ (foundName = true) then
              .error "certification invalid"
            else
              .ok cert

/-- `readValidateBody` (server.go): hashes the request body with SHA-1
while teeing it into `bodyBuf` (so the buffer holds exactly the body
bytes), then verifies the `Signature` header (already base64-decoded, as
the standard-library decode step) against the digest with
`rsa.VerifyPKCS1v15` under the certificate's public key.  The source
dereferences `cert.PublicKey` (a panic when `cert` is nil) and performs the
unchecked interface conversion `publicKey.(*rsa.PublicKey)` (a panic when
the key is not RSA).  `verifyPKCS1v15 key digest sig = true` models a nil
error from `rsa.VerifyPKCS1v15`. -/
def readValidateBody {K : Type}
    (verifyPKCS1v15 : K → List Nat → List Nat → Bool)
    (sha1Hash : List Nat → List Nat)
    (cert : Option (Certificate K))
    (body : List Nat) (encryptedSig : List Nat) :
    GoOutcome (Except String (List Nat)) :=
  match cert with
  | none => .panic "invalid memory address or nil pointer dereference"
  | some c =>
    let bodyBuf := body
    let digest := sha1Hash body
    match c.publicKey with
    | .nonRSA => .panic "interface conversion: interface is not *rsa.PublicKey"
    | .rsa key =>
      if verifyPKCS1v15 key digest encryptedSig then
        .ok (.ok bodyBuf)
      else
        .ok (.error "signature match failed")

/-- One observable action of the handler returned by
`NewValidatingHandler`: an `http.Error` write, or the invocation of the
wrapped `alexaHandler` with the restored request body (`none` = the `body`
reader variable was nil when restored). -/
inductive HandlerStep where
  | errorResponse (status : Nat) (message : String)
  | serveWrapped (restoredBody : Option (List Nat))
  deriving DecidableEq, Repr

/-- How an invocation of the validating handler ends: normally, or in a
run-time panic; in both cases with the list of `HandlerStep`s performed
before the end, in order. -/
inductive HandlerOutcome where
  | completed (steps : List HandlerStep)
  | panicked (steps : List HandlerStep)
  deriving DecidableEq, Repr

/-- `NewValidatingHandler` (server.go): the wrapping handler.  It runs
`readValidateCertificate`; on error it writes a 401 `http.Error` — and,
lacking a `return` statement, falls through with `cert = nil`.  It then
runs `readValidateBody`; on error it writes a 401 `http.Error` — again
without `return` — and finally restores the request body and invokes the
wrapped `alexaHandler`. -/
def NewValidatingHandler {K : Type}
    (verifyPKCS1v15 : K → List Nat → List Nat → Bool)
    (sha1Hash : List Nat → List Nat)
    (certReader : CertURL → Except String (List Nat))
    (pemDecode : List Nat → Option (List Nat))
    (parseCertificate : List Nat → Except String (Certificate K))
    (now : Int) (certURL : CertURL)
    (body : List Nat) (encryptedSig : List Nat) : HandlerOutcome :=
  let certResult := readValidateCertificate certReader pemDecode parseCertificate now certURL
  let written :=
    match certResult with
    | .error e => [HandlerStep.errorResponse 401 ("Certificate validation failed: " ++ e)]
    | .ok _ => []
  let cert : Option (Certificate K) :=
    match certResult with
    | .error _ => none
    | .ok c => some c
  match readValidateBody verifyPKCS1v15 sha1Hash cert body encryptedSig with
  | .panic _ => .panicked written
  | .ok (.error e) =>
    .completed (written ++
      [HandlerStep.errorResponse 401 ("Signature validation failed: " ++ e),
       HandlerStep.serveWrapped none])
  | .ok (.ok b) =>
    .completed (written ++ [HandlerStep.serveWrapped (some b)])

/-- `alexa.RequestApplication` (types.go). -/
structure RequestApplication where
  applicationID : String
  deriving DecidableEq, Repr

/-- `alexa.Session` (types.go), restricted to the fields the verified
functions read (`Application`; the `New`, `SessionID`, `Attributes` and
`User` fields are never inspected by the validation code). -/
structure Session where
  application : RequestApplication
  deriving DecidableEq, Repr

/-- `alexa.Request` (types.go), restricted to the fields the verified
functions read (`Type` and `Timestamp`). -/
structure Request where
  type : String
  timestamp : String
  deriving DecidableEq, Repr

/-- `alexa.RequestEnvelope` (types.go).  `Session` and `Request` are
pointer fields in Go (`*Session`, `*Request`), hence `Option` here: `none`
models a nil pointer, a shape JSON unmarshalling permits. -/
structure RequestEnvelope where
  version : String
  session : Option Session
  request : Option Request
  deriving DecidableEq, Repr

/-- `validateApplicationID` (types.go): the application-binding check.  The
source reads `r.Session.Application.ApplicationID` without a nil check, so
a nil `Session` is a run-time panic. -/
def validateApplicationID (r : RequestEnvelope) (applicationID : String) :
    GoOutcome (Option GoError) :=
  match r.session with
  | none => .panic "invalid memory address or nil pointer dereference"
  | some session =>
    let reqAppID := session.application.applicationID
    if reqAppID = "" then
      .ok (some (.validation ⟨"request applicationID missing"⟩))
    else if reqAppID ≠ applicationID then
      .ok (some (.validation ⟨"request applicationID mismatch: " ++ reqAppID⟩))
    else
      .ok none

/-- `validateTimestamp` (types.go): the freshness check.  `parseRFC3339`
models the standard library's strict `time.Parse(time.RFC3339, ·)`,
returning the parsed instant in Unix nanoseconds (`none` = parse error).
Times and the difference are in integer nanoseconds, the exact resolution
of Go's `time.Time`; the source's
`math.Abs(now.Sub(timestamp).Seconds()) > maxDiffSeconds` compares
identically to `|now - timestamp| > maxDiffSeconds * 10^9` at every
nanosecond-integral duration (whole-second thresholds are exactly
representable in float64 and the float64 spacing near them is far below
one nanosecond).  The source reads `r.Request.Timestamp` without a nil
check. -/
def validateTimestamp (parseRFC3339 : String → Option Int)
    (r : RequestEnvelope) (now : Int) (maxDiffSeconds : Int) :
    GoOutcome (Option GoError) :=
  match r.request with
  | none => .panic "invalid memory address or nil pointer dereference"
  | some req =>
    match parseRFC3339 req.timestamp with
    | none =>
      .ok (some (.validation ⟨"invalid timestamp " ++ req.timestamp⟩))
    | some timestamp =>
      let diff := now - timestamp
      if |diff| > maxDiffSeconds * 1000000000 then
        .ok (some (.validation ⟨"timestamp difference exceeds maximum"⟩))
      else
        .ok none

/-- `alexa.StrictVerificationApp` (types.go): wraps an `App`.  Of the
wrapped `App` only its `ApplicationID` field and its `Handle` method are
used, so the latter is kept abstract (`Ctx` is `context.Context`, `ρ` the
response-envelope type; a Go `(*ResponseEnvelope, error)` pair is an
`Except GoError ρ`). -/
structure StrictVerificationApp (Ctx ρ : Type) where
  applicationID : String
  appHandle : Ctx → RequestEnvelope → Except GoError ρ

/-- `StrictVerificationApp.Handle` (types.go): verifies the request —
application binding first, then timestamp freshness with
`maxDiffSeconds = 150` — before handing it off to the wrapped `App`'s
`Handle`.  `now` is the `time.Now()` read, injected here. -/
def StrictVerificationApp.Handle {Ctx ρ : Type}
    (parseRFC3339 : String → Option Int) (now : Int)
    (s : StrictVerificationApp Ctx ρ) (ctx : Ctx) (r : RequestEnvelope) :
    GoOutcome (Except GoError ρ) :=
  match validateApplicationID r s.applicationID with
  | .panic m => .panic m
  | .ok (some err) => .ok (.error err)
  | .ok none =>
    match validateTimestamp parseRFC3339 r now 150 with
    | .panic m => .panic m
    | .ok (some err) => .ok (.error err)
    | .ok none => .ok (s.appHandle ctx r)

/-- Claim statement helper: the three acceptance conditions of
`verifyCertURL` written out. -/
def certURLAccepted (link : CertURL) : Prop :=
  link.scheme = "https" ∧
  (link.host = "s3.amazonaws.com" ∨ link.host = "s3.amazonaws.com:443") ∧
  hasPrefixGo link.path "/echo.api/" = true

instance (link : CertURL) : Decidable (certURLAccepted link) := by
  unfold certURLAccepted; infer_instance

/-- C3 (amended) — for every URL string on which `url.Parse` succeeds,
`verifyCertURL` accepts iff the scheme is exactly `https`, the host is
exactly `s3.amazonaws.com` (optionally with the explicit `:443` port) and
the path begins with `/echo.api/`, the rules checked in that order with
the first failing rule determining the returned error; but on every URL
string `url.Parse` fails to parse, `verifyCertURL` panics dereferencing
the nil link instead of returning any rule's error, so the frozen claim
does not hold over every URL string. -/
theorem verifyCertURL_rules (link : CertURL) :
    (verifyCertURL (some link) = .ok none ↔ certURLAccepted link) ∧
    (link.scheme ≠ "https" →
      verifyCertURL (some link) = .ok (some "cert url not https")) ∧
    (link.scheme = "https" →
      link.host ≠ "s3.amazonaws.com" → link.host ≠ "s3.amazonaws.com:443" →
      verifyCertURL (some link) = .ok (some "cert not on s3")) ∧
    (link.scheme = "https" →
      (link.host = "s3.amazonaws.com" ∨ link.host = "s3.amazonaws.com:443") →
      hasPrefixGo link.path "/echo.api/" = false →
      verifyCertURL (some link) = .ok (some "not an echo cert")) ∧
    verifyCertURL none = .panic "invalid memory address or nil pointer dereference" := by
  unfold verifyCertURL verifyCertURLChecks certURLAccepted
  by_cases h1 : link.scheme = "https" <;>
    by_cases h2 : link.host = "s3.amazonaws.com" <;>
      by_cases h3 : link.host = "s3.amazonaws.com:443" <;>
        by_cases h4 : hasPrefixGo link.path "/echo.api/" = true <;>
          simp_all

/-- Counterexample for C3 as frozen: the URL string
"https://s3.amazonaws.com:bad/echo.api/x" carries an invalid port, so Go's
`url.Parse` fails and the discarded-error parse in `verifyCertURL` leaves a
nil link (modelled as `none`).  The claim, quantifying over every URL
string, demands the first failing rule's error — here "cert not on s3",
since the host is not the trusted host — but the program panics on the nil
dereference and returns no error and no acceptance at all. -/
theorem verifyCertURL_unparseable_counterexample :
    verifyCertURL none = .panic "invalid memory address or nil pointer dereference" ∧
    verifyCertURL none ≠ .ok (some "cert not on s3") ∧
    verifyCertURL none ≠ .ok none :=
  ⟨rfl, by decide, by decide⟩

/-- C1 — the claim says a failed validation stage always yields an
authentication-denied response and the wrapped handler is never invoked.
The code violates this: `NewValidatingHandler` lacks `return` statements
after its `http.Error` calls.  First conjunct: with a certificate that
validates but a signature that does not verify, the handler writes the 401
response and then still invokes the wrapped handler (with a nil body
reader).  Second conjunct: with a failing certificate stage, the handler
writes the 401 response and then panics dereferencing the nil certificate
instead of returning. -/
theorem validatingHandler_falls_through :
    (@NewValidatingHandler Unit
      (fun _ _ _ => false) (fun _ => []) (fun _ => .ok [0])
      (fun bs => some bs) (fun _ => .ok ⟨0, 10, ["echo-api.amazon.com"], .rsa ()⟩)
      5 ⟨"https", "s3.amazonaws.com", "/echo.api/cert.pem"⟩ [1, 2, 3] [] =
      .completed
        [.errorResponse 401 "Signature validation failed: signature match failed",
         .serveWrapped none]) ∧
    (@NewValidatingHandler Unit
      (fun _ _ _ => true) (fun _ => []) (fun _ => .ok [0])
      (fun bs => some bs) (fun _ => .ok ⟨0, 10, ["echo-api.amazon.com"], .rsa ()⟩)
      5 ⟨"http", "s3.amazonaws.com", "/echo.api/cert.pem"⟩ [1, 2, 3] [] =
      .panicked
        [.errorResponse 401 "Certificate validation failed: cert url not https"]) :=
  ⟨rfl, rfl⟩

/-- C2 — the claim says `readValidateBody` is total over all public-key
types, returning a failure on a non-RSA key.  The code violates this: the
unchecked interface conversion `publicKey.(*rsa.PublicKey)` panics on a
certificate whose public key is not RSA. -/
theorem readValidateBody_nonRSA_panics :
    @readValidateBody Unit (fun _ _ _ => true) (fun _ => [])
      (some ⟨0, 10, ["echo-api.amazon.com"], .nonRSA⟩) [1] [2] =
      .panic "interface conversion: interface is not *rsa.PublicKey" :=
  rfl

/-- C4 — once the earlier stages (URL check, fetch, PEM decode, X.509
parse) have succeeded, the temporal check accepts exactly when `now` lies
in `[notBefore, notAfter]` inclusive of both bounds (in Unix seconds); a
rejection produces the error "certificate expired", whose text names
"expired", regardless of whether the failure is too-early or too-late. -/
theorem readValidateCertificate_temporal {K : Type}
    (certReader : CertURL → Except String (List Nat))
    (pemDecode : List Nat → Option (List Nat))
    (parseCertificate : List Nat → Except String (Certificate K))
    (now : Int) (certURL : CertURL)
    (certContents blockBytes : List Nat) (cert : Certificate K)
    (hurl : verifyCertURLChecks certURL = none)
    (hread : certReader certURL = .ok certContents)
    (hpem : pemDecode certContents = some blockBytes)
    (hparse : parseCertificate blockBytes = .ok cert) :
    (¬ (cert.notBefore ≤ now ∧ now ≤ cert.notAfter) →
      readValidateCertificate certReader pemDecode parseCertificate now certURL =
        .error "certificate expired") ∧
    (cert.notBefore ≤ now ∧ now ≤ cert.notAfter →
      readValidateCertificate certReader pemDecode parseCertificate now certURL =
        .ok cert ∨
      readValidateCertificate certReader pemDecode parseCertificate now certURL =
        .error "certification invalid") ∧
    (∃ a b : String, "certificate expired" = a ++ "expired" ++ b) := by
  refine ⟨?_, ?_, "certificate ", "", rfl⟩ <;>
    intro h <;>
      simp only [readValidateCertificate, hurl, hread, hpem, hparse]
  · rw [if_pos (by omega)]
  · rw [if_neg (by omega)]
    by_cases hf :
        cert.subjectNames.any (fun altName => altName == "echo-api.amazon.com") = true
    · left
      simp [hf]
    · right
      simp [hf]

/-- Witness for C4: a concrete certificate valid on Unix seconds
`[100, 200]` is rejected as expired at `now = 201` (one second past
`notAfter`), and at `now = 200` (exactly `notAfter`) it passes the
temporal check and is accepted. -/
theorem readValidateCertificate_temporal_witness :
    @readValidateCertificate Unit (fun _ => .ok [7]) (fun bs => some bs)
      (fun _ => .ok ⟨100, 200, ["echo-api.amazon.com"], .rsa ()⟩)
      201 ⟨"https", "s3.amazonaws.com", "/echo.api/cert.pem"⟩ =
      .error "certificate expired" :=
  (@readValidateCertificate_temporal Unit (fun _ => .ok [7]) (fun bs => some bs)
    (fun _ => .ok ⟨100, 200, ["echo-api.amazon.com"], .rsa ()⟩)
    201 ⟨"https", "s3.amazonaws.com", "/echo.api/cert.pem"⟩
    [7] [7] ⟨100, 200, ["echo-api.amazon.com"], .rsa ()⟩
    (by decide) rfl rfl rfl).1 (by decide)

/-- C8 — once the earlier stages and the temporal check have succeeded,
`readValidateCertificate` accepts exactly when some entry of the
certificate's `Subject.Names`, anywhere in the list, equals the canonical
service hostname `echo-api.amazon.com`, and rejects with
"certification invalid" otherwise. -/
theorem readValidateCertificate_identity {K : Type}
    (certReader : CertURL → Except String (List Nat))
    (pemDecode : List Nat → Option (List Nat))
    (parseCertificate : List Nat → Except String (Certificate K))
    (now : Int) (certURL : CertURL)
    (certContents blockBytes : List Nat) (cert : Certificate K)
    (hurl : verifyCertURLChecks certURL = none)
    (hread : certReader certURL = .ok certContents)
    (hpem : pemDecode certContents = some blockBytes)
    (hparse : parseCertificate blockBytes = .ok cert)
    (htime : cert.notBefore ≤ now ∧ now ≤ cert.notAfter) :
    (readValidateCertificate certReader pemDecode parseCertificate now certURL =
        .ok cert ↔ "echo-api.amazon.com" ∈ cert.subjectNames) ∧
    ("echo-api.amazon.com" ∉ cert.subjectNames →
      readValidateCertificate certReader pemDecode parseCertificate now certURL =
        .error "certification invalid") := by
  have hmem :
      (cert.subjectNames.any (fun altName => altName == "echo-api.amazon.com") = true) ↔
        "echo-api.amazon.com" ∈ cert.subjectNames := by
    simp [List.any_eq_true]
  simp only [readValidateCertificate, hurl, hread, hpem, hparse]
  rw [if_neg (by omega)]
  constructor
  · by_cases hf :
        cert.subjectNames.any (fun altName => altName == "echo-api.amazon.com") = true
    · simp [hf, hmem.mp hf]
    · simp only [hf, not_false_eq_true, if_pos]
      constructor
      · intro hcontra
        exact absurd hcontra (by simp)
      · intro hm
        exact absurd (hmem.mpr hm) hf
  · intro hm
    have hf :
        cert.subjectNames.any (fun altName => altName == "echo-api.amazon.com") = false := by
      rw [← Bool.not_eq_true]
      exact fun hc => hm (hmem.mp hc)
    simp [hf]

/-- Witness for C8: a certificate carrying the canonical hostname as its
second subject-name entry is accepted at a time inside its validity
window, and the same certificate without that entry is rejected with
"certification invalid". -/
theorem readValidateCertificate_identity_witness :
    @readValidateCertificate Unit (fun _ => .ok [7]) (fun bs => some bs)
      (fun _ => .ok ⟨100, 200, ["other", "echo-api.amazon.com"], .rsa ()⟩)
      150 ⟨"https", "s3.amazonaws.com", "/echo.api/cert.pem"⟩ =
      .ok ⟨100, 200, ["other", "echo-api.amazon.com"], .rsa ()⟩ :=
  (@readValidateCertificate_identity Unit (fun _ => .ok [7]) (fun bs => some bs)
    (fun _ => .ok ⟨100, 200, ["other", "echo-api.amazon.com"], .rsa ()⟩)
    150 ⟨"https", "s3.amazonaws.com", "/echo.api/cert.pem"⟩
    [7] [7] ⟨100, 200, ["other", "echo-api.amazon.com"], .rsa ()⟩
    (by decide) rfl rfl rfl (by decide)).1.mpr (by decide)

/-- C5 — with an RSA public key, `readValidateBody` accepts exactly when
`rsa.VerifyPKCS1v15` accepts the SHA-1 digest of the body against the
signature, and on acceptance the returned reader holds byte-for-byte the
original body (the `TeeReader` buffer, no truncation or duplication);
whenever the primitive rejects — in particular on any input with a flipped
body or signature byte, which PKCS#1 v1.5 verification rejects — the result
is the "signature match failed" error. -/
theorem readValidateBody_roundTrip {K : Type}
    (verifyPKCS1v15 : K → List Nat → List Nat → Bool)
    (sha1Hash : List Nat → List Nat)
    (c : Certificate K) (key : K) (hkey : c.publicKey = .rsa key)
    (body encryptedSig : List Nat) :
    (verifyPKCS1v15 key (sha1Hash body) encryptedSig = true →
      readValidateBody verifyPKCS1v15 sha1Hash (some c) body encryptedSig =
        .ok (.ok body)) ∧
    (verifyPKCS1v15 key (sha1Hash body) encryptedSig = false →
      readValidateBody verifyPKCS1v15 sha1Hash (some c) body encryptedSig =
        .ok (.error "signature match failed")) := by
  constructor <;> intro h <;> simp [readValidateBody, hkey, h]

/-- Witness for C5: with a toy verifier accepting exactly when digest and
signature coincide, the matching signature round-trips the body `[1, 2, 3]`
unchanged, and flipping the last signature byte to `4` is rejected. -/
theorem readValidateBody_roundTrip_witness :
    @readValidateBody Unit (fun _ d s => d == s) (fun l => l)
      (some ⟨0, 10, ["echo-api.amazon.com"], .rsa ()⟩) [1, 2, 3] [1, 2, 3] =
      .ok (.ok [1, 2, 3]) ∧
    @readValidateBody Unit (fun _ d s => d == s) (fun l => l)
      (some ⟨0, 10, ["echo-api.amazon.com"], .rsa ()⟩) [1, 2, 3] [1, 2, 4] =
      .ok (.error "signature match failed") :=
  ⟨(readValidateBody_roundTrip (fun _ d s => d == s) (fun l => l)
      ⟨0, 10, ["echo-api.amazon.com"], .rsa ()⟩ () rfl [1, 2, 3] [1, 2, 3]).1 (by decide),
   (readValidateBody_roundTrip (fun _ d s => d == s) (fun l => l)
      ⟨0, 10, ["echo-api.amazon.com"], .rsa ()⟩ () rfl [1, 2, 3] [1, 2, 4]).2 (by decide)⟩

/-- Witness for C3 (amended): the canonical URL shape and its
explicit-port variant are accepted, one concrete parse-successful URL per
rule is rejected with that rule's error, and the failed-parse case
panics. -/
theorem verifyCertURL_rules_witness :
    verifyCertURL (some ⟨"https", "s3.amazonaws.com", "/echo.api/echo-api-cert.pem"⟩) =
      .ok none ∧
    verifyCertURL (some ⟨"https", "s3.amazonaws.com:443", "/echo.api/echo-api-cert.pem"⟩) =
      .ok none ∧
    verifyCertURL (some ⟨"http", "s3.amazonaws.com", "/echo.api/cert.pem"⟩) =
      .ok (some "cert url not https") ∧
    verifyCertURL (some ⟨"https", "example.com", "/echo.api/cert.pem"⟩) =
      .ok (some "cert not on s3") ∧
    verifyCertURL (some ⟨"https", "s3.amazonaws.com", "/other/cert.pem"⟩) =
      .ok (some "not an echo cert") ∧
    verifyCertURL none = .panic "invalid memory address or nil pointer dereference" :=
  ⟨(verifyCertURL_rules _).1.mpr (by decide),
   (verifyCertURL_rules _).1.mpr (by decide),
   (verifyCertURL_rules _).2.1 (by decide),
   (verifyCertURL_rules _).2.2.1 rfl (by decide) (by decide),
   (verifyCertURL_rules _).2.2.2.1 rfl (Or.inl rfl) (by decide),
   (verifyCertURL_rules ⟨"https", "s3.amazonaws.com", "/echo.api/x"⟩).2.2.2.2⟩

/-- C6 — with the request present, `validateTimestamp` (at the configured
maximum of 150 seconds) returns a `ValidationError` — not a generic error —
when the timestamp does not parse, and otherwise accepts exactly when the
absolute difference between `now` and the parsed timestamp is at most 150
seconds (so 151 seconds in the past or future is rejected, exactly 150 is
accepted), rejecting with a `ValidationError` beyond that. -/
theorem validateTimestamp_freshness (parseRFC3339 : String → Option Int)
    (r : RequestEnvelope) (req : Request) (now : Int)
    (hreq : r.request = some req) :
    (parseRFC3339 req.timestamp = none →
      validateTimestamp parseRFC3339 r now 150 =
        .ok (some (.validation ⟨"invalid timestamp " ++ req.timestamp⟩))) ∧
    (∀ timestamp : Int, parseRFC3339 req.timestamp = some timestamp →
      (validateTimestamp parseRFC3339 r now 150 = .ok none ↔
        |now - timestamp| ≤ 150 * 1000000000)) ∧
    (∀ timestamp : Int, parseRFC3339 req.timestamp = some timestamp →
      |now - timestamp| > 150 * 1000000000 →
      validateTimestamp parseRFC3339 r now 150 =
        .ok (some (.validation ⟨"timestamp difference exceeds maximum"⟩))) := by
  refine ⟨?_, ?_, ?_⟩
  · intro h
    simp [validateTimestamp, hreq, h]
  · intro timestamp ht
    simp only [validateTimestamp, hreq, ht]
    by_cases hd : |now - timestamp| > 150 * 1000000000
    · rw [if_pos hd]
      simp only [GoOutcome.ok.injEq, reduceCtorEq, false_iff, not_le]
      exact hd
    · rw [if_neg hd]
      simp only [GoOutcome.ok.injEq, true_iff]
      omega
  · intro timestamp ht hd
    simp [validateTimestamp, hreq, ht, hd]
    linarith [hd]

/-- Witness for C6: with a parse mapping "t" to Unix instant 0, `now` at
exactly +150 seconds (in nanoseconds) is accepted, +151 seconds is
rejected with a `ValidationError`, and the unparseable timestamp "bad" is
rejected with a `ValidationError`. -/
theorem validateTimestamp_freshness_witness :
    validateTimestamp (fun s => if s = "t" then some 0 else none)
      ⟨"1.0", none, some ⟨"IntentRequest", "t"⟩⟩ 150000000000 150 = .ok none ∧
    validateTimestamp (fun s => if s = "t" then some 0 else none)
      ⟨"1.0", none, some ⟨"IntentRequest", "t"⟩⟩ 151000000000 150 =
      .ok (some (.validation ⟨"timestamp difference exceeds maximum"⟩)) ∧
    validateTimestamp (fun s => if s = "t" then some 0 else none)
      ⟨"1.0", none, some ⟨"IntentRequest", "bad"⟩⟩ 0 150 =
      .ok (some (.validation ⟨"invalid timestamp bad"⟩)) :=
  ⟨((validateTimestamp_freshness (fun s => if s = "t" then some 0 else none)
      ⟨"1.0", none, some ⟨"IntentRequest", "t"⟩⟩ ⟨"IntentRequest", "t"⟩
      150000000000 rfl).2.1 0 (by decide)).mpr (by decide),
   (validateTimestamp_freshness (fun s => if s = "t" then some 0 else none)
      ⟨"1.0", none, some ⟨"IntentRequest", "t"⟩⟩ ⟨"IntentRequest", "t"⟩
      151000000000 rfl).2.2 0 (by decide) (by decide),
   (validateTimestamp_freshness (fun s => if s = "t" then some 0 else none)
      ⟨"1.0", none, some ⟨"IntentRequest", "bad"⟩⟩ ⟨"IntentRequest", "bad"⟩
      0 rfl).1 (by decide)⟩

/-- C7 — with the session present, the application-binding check accepts
exactly when the envelope's declared application identity is non-empty and
equal to the configured identity; an empty identity yields the
"request applicationID missing" diagnostic, a non-empty mismatched one the
"request applicationID mismatch: ..." diagnostic, and the two diagnostics
are distinct. -/
theorem validateApplicationID_binding (r : RequestEnvelope) (session : Session)
    (applicationID : String) (hs : r.session = some session) :
    (validateApplicationID r applicationID = .ok none ↔
      session.application.applicationID ≠ "" ∧
      session.application.applicationID = applicationID) ∧
    (session.application.applicationID = "" →
      validateApplicationID r applicationID =
        .ok (some (.validation ⟨"request applicationID missing"⟩))) ∧
    (session.application.applicationID ≠ "" →
      session.application.applicationID ≠ applicationID →
      validateApplicationID r applicationID =
        .ok (some (.validation
          ⟨"request applicationID mismatch: " ++ session.application.applicationID⟩))) ∧
    ("request applicationID missing" ≠
      "request applicationID mismatch: " ++ session.application.applicationID) := by
  refine ⟨?_, ?_, ?_, ?_⟩
  · constructor
    · intro h
      by_cases h1 : session.application.applicationID = ""
      · simp [validateApplicationID, hs, h1] at h
      · by_cases h2 : session.application.applicationID = applicationID
        · exact ⟨h1, h2⟩
        · simp [validateApplicationID, hs, h1, h2] at h
    · rintro ⟨h1, h2⟩
      subst h2
      simp [validateApplicationID, hs, h1]
  · intro h1
    simp [validateApplicationID, hs, h1]
  · intro h1 h2
    simp [validateApplicationID, hs, h1, h2]
  · intro hcontra
    have hlen := congrArg String.length hcontra
    rw [String.length_append] at hlen
    have hm : ("request applicationID missing").length = 29 := rfl
    have hm' : ("request applicationID mismatch: ").length = 32 := rfl
    omega

/-- Witness for C7: the matching identity is accepted, the empty identity
and a mismatched identity are rejected with their two distinct
diagnostics. -/
theorem validateApplicationID_binding_witness :
    validateApplicationID ⟨"1.0", some ⟨⟨"amzn1.ask.skill.123"⟩⟩, none⟩
      "amzn1.ask.skill.123" = .ok none ∧
    validateApplicationID ⟨"1.0", some ⟨⟨""⟩⟩, none⟩ "amzn1.ask.skill.123" =
      .ok (some (.validation ⟨"request applicationID missing"⟩)) ∧
    validateApplicationID ⟨"1.0", some ⟨⟨"other"⟩⟩, none⟩ "amzn1.ask.skill.123" =
      .ok (some (.validation ⟨"request applicationID mismatch: other"⟩)) :=
  ⟨(validateApplicationID_binding ⟨"1.0", some ⟨⟨"amzn1.ask.skill.123"⟩⟩, none⟩
      ⟨⟨"amzn1.ask.skill.123"⟩⟩ "amzn1.ask.skill.123" rfl).1.mpr (by decide),
   (validateApplicationID_binding ⟨"1.0", some ⟨⟨""⟩⟩, none⟩
      ⟨⟨""⟩⟩ "amzn1.ask.skill.123" rfl).2.1 rfl,
   (validateApplicationID_binding ⟨"1.0", some ⟨⟨"other"⟩⟩, none⟩
      ⟨⟨"other"⟩⟩ "amzn1.ask.skill.123" rfl).2.2.1 (by decide) (by decide)⟩

/-- C9 — `StrictVerificationApp.Handle` is a separable decorator: when
both the application-binding and the timestamp-freshness check pass it
returns exactly the wrapped `App`'s `Handle` result, and when either check
fails it returns that error with the wrapped `Handle` never invoked (the
result is the same for every wrapped handler). -/
theorem strictVerificationApp_decorator {Ctx ρ : Type}
    (parseRFC3339 : String → Option Int) (now : Int)
    (applicationID : String) (ctx : Ctx) (r : RequestEnvelope) :
    (∀ appHandle : Ctx → RequestEnvelope → Except GoError ρ,
      validateApplicationID r applicationID = .ok none →
      validateTimestamp parseRFC3339 r now 150 = .ok none →
      StrictVerificationApp.Handle parseRFC3339 now ⟨applicationID, appHandle⟩ ctx r =
        .ok (appHandle ctx r)) ∧
    (∀ e : GoError, validateApplicationID r applicationID = .ok (some e) →
      ∀ appHandle : Ctx → RequestEnvelope → Except GoError ρ,
        StrictVerificationApp.Handle parseRFC3339 now ⟨applicationID, appHandle⟩ ctx r =
          .ok (.error e)) ∧
    (∀ e : GoError, validateApplicationID r applicationID = .ok none →
      validateTimestamp parseRFC3339 r now 150 = .ok (some e) →
      ∀ appHandle : Ctx → RequestEnvelope → Except GoError ρ,
        StrictVerificationApp.Handle parseRFC3339 now ⟨applicationID, appHandle⟩ ctx r =
          .ok (.error e)) := by
  refine ⟨?_, ?_, ?_⟩
  · intro appHandle h1 h2
    simp [StrictVerificationApp.Handle, h1, h2]
  · intro e h1 appHandle
    simp [StrictVerificationApp.Handle, h1]
  · intro e h1 h2 appHandle
    simp [StrictVerificationApp.Handle, h1, h2]

/-- Witness for C9: on an envelope passing both checks the decorator
returns exactly the wrapped handler's value, and on a mismatched
application identity it returns the binding `ValidationError` unchanged
under an arbitrary wrapped handler. -/
theorem strictVerificationApp_decorator_witness :
    @StrictVerificationApp.Handle Unit Nat
      (fun s => if s = "t" then some 0 else none) 0
      ⟨"app1", fun _ _ => .ok 42⟩ ()
      ⟨"1.0", some ⟨⟨"app1"⟩⟩, some ⟨"IntentRequest", "t"⟩⟩ = .ok (.ok 42) ∧
    @StrictVerificationApp.Handle Unit Nat
      (fun s => if s = "t" then some 0 else none) 0
      ⟨"app1", fun _ _ => .ok 7⟩ ()
      ⟨"1.0", some ⟨⟨"other"⟩⟩, some ⟨"IntentRequest", "t"⟩⟩ =
      .ok (.error (.validation ⟨"request applicationID mismatch: other"⟩)) :=
  ⟨(strictVerificationApp_decorator (fun s => if s = "t" then some 0 else none) 0
      "app1" () ⟨"1.0", some ⟨⟨"app1"⟩⟩, some ⟨"IntentRequest", "t"⟩⟩).1
      (fun _ _ => .ok 42) (by decide) (by decide),
   (strictVerificationApp_decorator (fun s => if s = "t" then some 0 else none) 0
      "app1" () ⟨"1.0", some ⟨⟨"other"⟩⟩, some ⟨"IntentRequest", "t"⟩⟩).2.1
      (.validation ⟨"request applicationID mismatch: other"⟩) (by decide)
      (fun _ _ => .ok 7)⟩

/-- C10 — `StrictVerificationApp.Handle` is not total over its input type:
on every envelope whose `Session` pointer is nil, `validateApplicationID`
dereferences the nil `Session` and panics — and so does `Handle`, which
calls it first — instead of returning a typed rejection. -/
theorem strictVerificationApp_nilSession_panics {Ctx ρ : Type}
    (parseRFC3339 : String → Option Int) (now : Int)
    (s : StrictVerificationApp Ctx ρ) (ctx : Ctx) (r : RequestEnvelope)
    (hnil : r.session = none) :
    validateApplicationID r s.applicationID =
      .panic "invalid memory address or nil pointer dereference" ∧
    StrictVerificationApp.Handle parseRFC3339 now s ctx r =
      .panic "invalid memory address or nil pointer dereference" := by
  have h1 : validateApplicationID r s.applicationID =
      .panic "invalid memory address or nil pointer dereference" := by
    simp [validateApplicationID, hnil]
  exact ⟨h1, by simp [StrictVerificationApp.Handle, h1]⟩

/-- Witness for C10: a session-less envelope (the shape of an out-of-session
AudioPlayer request) makes the decorator panic. -/
theorem strictVerificationApp_nilSession_panics_witness :
    @StrictVerificationApp.Handle Unit Unit
      (fun _ => none) 0 ⟨"app1", fun _ _ => .ok ()⟩ ()
      ⟨"1.0", none, some ⟨"AudioPlayer.PlaybackStarted", "t"⟩⟩ =
      .panic "invalid memory address or nil pointer dereference" :=
  (strictVerificationApp_nilSession_panics (fun _ => none) 0
    ⟨"app1", fun _ _ => .ok ()⟩ ()
    ⟨"1.0", none, some ⟨"AudioPlayer.PlaybackStarted", "t"⟩⟩ rfl).2

end AlexaSkill
